import Mathlib

/-!
# wavepipe: search aggregation and the Subsonic music-folder adapter

A shallow embedding of `api/search.go`, `config/config.go` and
`subsonic/getMusicFolders.go`.

Conventions of the embedding:

* a Go slice `[]T` is `Option (List T)`: `none` is the `nil` slice (rendered
  as JSON `null`), `some xs` a non-nil slice (rendered as a JSON array, `[]`
  when `xs` is empty);
* a Go `(value, error)` result is `Except GoError value`;
* the renderer, the logger and the repository are effects: a handler returns
  the list of responses it rendered, the list of repository operations it
  invoked and the list of errors it logged, each in program order;
* record types of the `data` package are type parameters.
-/

set_option autoImplicit false

namespace Wavepipe

/-! ## Go runtime and library values -/

/-- A Go `error` value. -/
structure GoError where
  text : String
  deriving DecidableEq, Repr

/-- A Go slice: `none` is `nil`, `some xs` is a non-nil slice. -/
abbrev Slice (α : Type) : Type := Option (List α)

/-- Whether `p` is a prefix of `s`, as `strings.HasPrefix s p`. -/
def hasPrefix {α : Type} [DecidableEq α] : List α → List α → Bool
  | _, [] => true
  | [], _ :: _ => false
  | c :: cs, d :: ds => if c = d then hasPrefix cs ds else false

/-- The loop of `strings.Split` for a non-empty separator: `acc` holds the
characters of the current piece, most recent first. -/
def splitLoop (sep : List Char) : Nat → List Char → List Char → List (List Char)
  | 0, acc, rest => [acc.reverse ++ rest]
  | _ + 1, acc, [] => [acc.reverse]
  | fuel + 1, acc, c :: cs =>
    if hasPrefix (c :: cs) sep then
      acc.reverse :: splitLoop sep fuel [] ((c :: cs).drop sep.length)
    else
      splitLoop sep fuel (c :: acc) cs

/-- Go `strings.Split(s, sep)`: all pieces of `s` separated by `sep`; with an
empty separator, one piece per character. -/
def Split (s sep : String) : List String :=
  if sep.data = [] then s.data.map (fun c => String.mk [c])
  else (splitLoop sep.data (s.data.length + 1) [] s.data).map String.mk

/-! ## goset -/

/-- A `set.Set` of strings from `goset`: its members, without repetition. -/
structure Set where
  items : List String
  deriving DecidableEq, Repr

/-- Go `(*Set).Has`. -/
def Set.Has (s : Set) (x : String) : Bool := s.items.contains x

/-- Go `(*Set).Add`: adding a member is a no-op. -/
def Set.Add (s : Set) (x : String) : Set :=
  if s.Has x then s else ⟨s.items ++ [x]⟩

/-- Go `set.New(items...)`. -/
def Set.New (xs : List String) : Set := xs.foldl Set.Add ⟨[]⟩

/-! ## `api/search.go` -/

/-- The `api.Error` value of a JSON response. -/
structure Error where
  Code : Int
  Message : String
  deriving DecidableEq, Repr

/-- The JSON body `SearchResponse` (its `render` field is the effect, not data). -/
structure SearchResponse (A B S F : Type) where
  Error : Option Error
  Artists : Slice A
  Albums : Slice B
  Songs : Slice S
  Folders : Slice F
  deriving DecidableEq, Repr

/-- One call `render.JSON(status, body)`. -/
structure Rendered (A B S F : Type) where
  status : Int
  body : SearchResponse A B S F
  deriving DecidableEq, Repr

/-- The four search operations of `data.DB`. -/
inductive Op where
  | SearchArtists
  | SearchAlbums
  | SearchSongs
  | SearchFolders
  deriving DecidableEq, Repr

/-- One invocation of a repository search operation. -/
structure Call where
  op : Op
  query : String
  deriving DecidableEq, Repr

/-- The repository `data.DB`, as far as `GetSearch` uses it. -/
structure DB (A B S F : Type) where
  SearchArtists : String → Except GoError (Slice A)
  SearchAlbums : String → Except GoError (Slice B)
  SearchSongs : String → Except GoError (Slice S)
  SearchFolders : String → Except GoError (Slice F)

/-- `martini.Params`, a `map[string]string`. -/
abbrev Params : Type := List (String × String)

/-- `url.Values`, a `map[string][]string`. -/
abbrev Values : Type := List (String × List String)

/-- Go `url.Values.Get`: the first value of the key, or the empty string. -/
def Values.Get (v : Values) (key : String) : String :=
  match v.lookup key with
  | some (x :: _) => x
  | _ => ""

/-- The part of `*http.Request` the handler reads: `req.URL.Query()`. -/
structure Request where
  urlQuery : Values
  deriving DecidableEq, Repr

/-- What one run of a handler did: responses rendered, repository operations
invoked, errors passed to `log.Println`. -/
structure Outcome (A B S F : Type) where
  rendered : List (Rendered A B S F)
  calls : List Call
  logged : List GoError
  deriving DecidableEq, Repr

section Search

variable {A B S F : Type}

/-- The zero value `SearchResponse{render: r}`. -/
def SearchResponse.zero : SearchResponse A B S F :=
  { Error := none, Artists := none, Albums := none, Songs := none, Folders := none }

/-- Go `(*SearchResponse).RenderError`. -/
def SearchResponse.RenderError (s : SearchResponse A B S F) (code : Int) (message : String) :
    Rendered A B S F :=
  let s := { s with Artists := none }
  let s := { s with Albums := none }
  let s := { s with Songs := none }
  let s := { s with Folders := none }
  let s := { s with Error := some { Code := code, Message := message } }
  { status := code, body := s }

/-- Go `(*SearchResponse).ServerError`. -/
def SearchResponse.ServerError (s : SearchResponse A B S F) : Rendered A B S F :=
  s.RenderError 500 "server error"

/-- Lines 70-88 of `GetSearch`: the type set selected by the raw `type` value. -/
def selectTypes (types : String) : Set :=
  let defaultTypeSet := Set.New ["artists", "albums", "songs", "folders"]
  if types = "" then defaultTypeSet
  else
    (Split types ",").foldl
      (fun typeSet t => if defaultTypeSet.Has t then typeSet.Add t else typeSet) (Set.New [])

/-- Lines 146-149 of `GetSearch`: HTTP 200 with the gathered results. -/
def renderOK (res : SearchResponse A B S F) (calls : List Call) : Outcome A B S F :=
  let res := { res with Error := none }
  { rendered := [{ status := 200, body := res }], calls := calls, logged := [] }

/-- The failure branch of each search block: log, `ServerError`, return. -/
def renderFailure (res : SearchResponse A B S F) (calls : List Call) (err : GoError) :
    Outcome A B S F :=
  { rendered := [res.ServerError], calls := calls, logged := [err] }

/-- Lines 132-149 of `GetSearch`. -/
def searchFolders (db : DB A B S F) (query : String) (typeSet : Set)
    (res : SearchResponse A B S F) (calls : List Call) : Outcome A B S F :=
  if typeSet.Has "folders" then
    match db.SearchFolders query with
    | .error err => renderFailure res (calls ++ [⟨.SearchFolders, query⟩]) err
    | .ok folders => renderOK { res with Folders := folders } (calls ++ [⟨.SearchFolders, query⟩])
  else renderOK res calls

/-- Lines 118-149 of `GetSearch`. -/
def searchSongs (db : DB A B S F) (query : String) (typeSet : Set)
    (res : SearchResponse A B S F) (calls : List Call) : Outcome A B S F :=
  if typeSet.Has "songs" then
    match db.SearchSongs query with
    | .error err => renderFailure res (calls ++ [⟨.SearchSongs, query⟩]) err
    | .ok songs =>
      searchFolders db query typeSet { res with Songs := songs } (calls ++ [⟨.SearchSongs, query⟩])
  else searchFolders db query typeSet res calls

/-- Lines 104-149 of `GetSearch`. -/
def searchAlbums (db : DB A B S F) (query : String) (typeSet : Set)
    (res : SearchResponse A B S F) (calls : List Call) : Outcome A B S F :=
  if typeSet.Has "albums" then
    match db.SearchAlbums query with
    | .error err => renderFailure res (calls ++ [⟨.SearchAlbums, query⟩]) err
    | .ok albums =>
      searchSongs db query typeSet { res with Albums := albums } (calls ++ [⟨.SearchAlbums, query⟩])
  else searchSongs db query typeSet res calls

/-- Lines 90-149 of `GetSearch`. -/
def searchArtists (db : DB A B S F) (query : String) (typeSet : Set)
    (res : SearchResponse A B S F) (calls : List Call) : Outcome A B S F :=
  if typeSet.Has "artists" then
    match db.SearchArtists query with
    | .error err => renderFailure res (calls ++ [⟨.SearchArtists, query⟩]) err
    | .ok artists =>
      searchAlbums db query typeSet { res with Artists := artists }
        (calls ++ [⟨.SearchArtists, query⟩])
  else searchAlbums db query typeSet res calls

/-- Lines 63-149 of `GetSearch`: everything after the version check. -/
def searchQuery (db : DB A B S F) (req : Request) (params : Params)
    (res : SearchResponse A B S F) : Outcome A B S F :=
  match params.lookup "query" with
  | none => { rendered := [res.RenderError 400 "no search query specified"], calls := [], logged := [] }
  | some query => searchArtists db query (selectTypes (req.urlQuery.Get "type")) res []

/-- Go `GetSearch`. `apiVersionSet` is the package-level set of advertised API
versions. -/
def GetSearch (apiVersionSet : Set) (db : DB A B S F) (req : Request) (params : Params) :
    Outcome A B S F :=
  let res : SearchResponse A B S F := SearchResponse.zero
  match params.lookup "version" with
  | some version =>
    if !apiVersionSet.Has version then
      { rendered := [res.RenderError 400 ("unsupported API version" ++ version)],
        calls := [], logged := [] }
    else searchQuery db req params res
  | none => searchQuery db req params res

end Search

/-! ## `config/config.go` -/

/-- The loop of `strings.Replace` for a non-empty `old`; `limit` is the number
of replacements still allowed, `none` when unlimited. -/
def replaceLoop (old new : List Char) : Nat → Option Nat → List Char → List Char
  | 0, _, s => s
  | _ + 1, _, [] => []
  | fuel + 1, limit, c :: cs =>
    if limit = some 0 then c :: cs
    else if hasPrefix (c :: cs) old then
      new ++ replaceLoop old new fuel (limit.map (· - 1)) ((c :: cs).drop old.length)
    else c :: replaceLoop old new fuel limit cs

/-- The loop of `strings.Replace` for an empty `old`, which matches before every
character and at the end. -/
def replaceEmpty (new : List Char) : Option Nat → List Char → List Char
  | limit, [] => if limit = some 0 then [] else new
  | limit, c :: cs =>
    if limit = some 0 then c :: cs else new ++ c :: replaceEmpty new (limit.map (· - 1)) cs

/-- Go `strings.Replace(s, old, new, n)`: the first `n` non-overlapping
instances of `old` replaced by `new`, all of them when `n < 0`. -/
def Replace (s old new : String) (n : Int) : String :=
  if old = new ∨ n = 0 then s
  else
    let limit : Option Nat := if n < 0 then none else some n.toNat
    if old.data = [] then String.mk (replaceEmpty new.data limit s.data)
    else String.mk (replaceLoop old.data new.data (s.data.length + 1) limit s.data)

/-- Go `strings.TrimRight(s, cutset)`: all trailing characters contained in
`cutset` removed. -/
def TrimRight (s cutset : String) : String :=
  String.mk (s.data.reverse.dropWhile (fun c => cutset.data.contains c)).reverse

/-- The `SqliteConfig` options. -/
structure SqliteConfig where
  File : String
  deriving DecidableEq, Repr

/-- The program configuration `Config`. -/
structure Config where
  Host : String
  MediaFolder : String
  Sqlite : Option SqliteConfig
  deriving DecidableEq, Repr

/-- The part of `os/user.User` that `Media` reads. -/
structure User where
  HomeDir : String
  deriving DecidableEq, Repr

/-- Go `Config.Media`, given the result of `user.Current()`: the media folder
and the errors logged. -/
def Config.Media (c : Config) (current : Except GoError User) : String × List GoError :=
  match current with
  | .error err => (c.MediaFolder, [err])
  | .ok user => (TrimRight (Replace c.MediaFolder "~" user.HomeDir (-1)) "/\\", [])

/-! ## `subsonic/getMusicFolders.go` -/

/-- Go `lastSlash` of package `path`: the index of the last `/`, or `-1`. -/
def lastSlash (s : List Char) : Int :=
  let after := (s.reverse.takeWhile (fun c => c ≠ '/')).length
  if after = s.length then -1 else (s.length : Int) - 1 - after

/-- Go `path.Base`: the last element of a slash-separated path. -/
def Base (path : String) : String :=
  if path = "" then "."
  else
    let p := (path.data.reverse.dropWhile (fun c => c = '/')).reverse
    let i := lastSlash p
    let p := if i ≥ 0 then p.drop (i + 1).toNat else p
    if p = [] then "/" else String.mk p

/-- Go `xml.Name`. -/
structure XMLName where
  Space : String
  Local : String
  deriving DecidableEq, Repr

/-- One emulated Subsonic music folder, `MusicFolder{ID, Name}`. -/
structure MusicFolder where
  ID : Int
  Name : String
  deriving DecidableEq, Repr

/-- The list `MusicFoldersContainer` of emulated Subsonic music folders. -/
structure MusicFoldersContainer where
  XMLName : XMLName
  MusicFolders : Slice MusicFolder
  deriving DecidableEq, Repr

/-- The Subsonic response `Container`: the pointer field `MusicFolders` this
handler sets, and all its other fields as `rest`. -/
structure Container (R : Type) where
  rest : R
  MusicFolders : Option MusicFoldersContainer
  deriving DecidableEq, Repr

/-- One call `render.XML(status, payload)`. -/
structure RenderedXML (R : Type) where
  status : Int
  payload : Container R
  deriving DecidableEq, Repr

/-- What one run of `GetMusicFolders` did. -/
structure FoldersOutcome (R : Type) where
  rendered : List (RenderedXML R)
  logged : List GoError
  deriving DecidableEq, Repr

/-- Go `GetMusicFolders`. `newContainer` is the value `newContainer()` returns,
`ErrGeneric` the package-level generic error container, `load` the result of
`config.C.Load()` and `current` the result of `user.Current()`. -/
def GetMusicFolders {R : Type} (newContainer ErrGeneric : Container R)
    (load : Except GoError Config) (current : Except GoError User) : FoldersOutcome R :=
  match load with
  | .error err => { rendered := [{ status := 200, payload := ErrGeneric }], logged := [err] }
  | .ok conf =>
    let c := newContainer
    let media := conf.Media current
    let folders : MusicFoldersContainer :=
      { XMLName := ⟨"", ""⟩, MusicFolders := some [⟨0, Base media.1⟩] }
    let c := { c with MusicFolders := some folders }
    { rendered := [{ status := 200, payload := c }], logged := media.2 }

/-! ## Vocabulary of the specification -/

section Vocabulary

variable {A B S F : Type}

/-- The type token that selects a search operation. -/
def Op.token : Op → String
  | .SearchArtists => "artists"
  | .SearchAlbums => "albums"
  | .SearchSongs => "songs"
  | .SearchFolders => "folders"

/-- Whether the repository answers the invocation `c` with an error. -/
def DB.fails (db : DB A B S F) (c : Call) : Bool :=
  match c.op with
  | .SearchArtists => match db.SearchArtists c.query with | .error _ => true | .ok _ => false
  | .SearchAlbums => match db.SearchAlbums c.query with | .error _ => true | .ok _ => false
  | .SearchSongs => match db.SearchSongs c.query with | .error _ => true | .ok _ => false
  | .SearchFolders => match db.SearchFolders c.query with | .error _ => true | .ok _ => false

/-- The fixed order artists, albums, songs, folders restricted to the kinds of
the type set, each operation with the query. -/
def selectedCalls (typeSet : Set) (query : String) : List Call :=
  ([Op.SearchArtists, Op.SearchAlbums, Op.SearchSongs, Op.SearchFolders].filter
    (fun o => typeSet.Has o.token)).map (fun o => ⟨o, query⟩)

/-- A list of invocations cut immediately after the first one that fails. -/
def upToFirstFailure (fails : Call → Bool) : List Call → List Call
  | [] => []
  | c :: cs => if fails c then [c] else c :: upToFirstFailure fails cs

/-- The version gate of the specification: the token is absent or advertised. -/
def versionAllowed (apiVersionSet : Set) (params : Params) : Bool :=
  match params.lookup "version" with
  | none => true
  | some version => apiVersionSet.Has version

/-- The error body: an error and all four result fields cleared. -/
def errorBody (code : Int) (message : String) : SearchResponse A B S F :=
  { Error := some ⟨code, message⟩, Artists := none, Albums := none, Songs := none, Folders := none }

/-- Whether the field of the kind searched by `o` is populated (a non-nil
slice, rendered as a JSON array rather than `null`). -/
def SearchResponse.populated (body : SearchResponse A B S F) : Op → Bool
  | .SearchArtists => body.Artists.isSome
  | .SearchAlbums => body.Albums.isSome
  | .SearchSongs => body.Songs.isSome
  | .SearchFolders => body.Folders.isSome

/-- Whether the repository answers the invocation `c` with a non-nil slice. -/
def DB.returnsNonNil (db : DB A B S F) (c : Call) : Bool :=
  match c.op with
  | .SearchArtists => match db.SearchArtists c.query with | .ok (some _) => true | _ => false
  | .SearchAlbums => match db.SearchAlbums c.query with | .ok (some _) => true | _ => false
  | .SearchSongs => match db.SearchSongs c.query with | .ok (some _) => true | _ => false
  | .SearchFolders => match db.SearchFolders c.query with | .ok (some _) => true | _ => false

/-- The value of a repository result, the nil slice for a failure. -/
def valueOrNil {α : Type} : Except GoError (Slice α) → Slice α
  | .ok xs => xs
  | .error _ => none

/-- A repository over numbers: two artists, no album, a failing song search, and
a folder search that returns the nil slice. -/
def demoDB : DB Nat Nat Nat Nat :=
  { SearchArtists := fun _ => .ok (some [1, 2])
    SearchAlbums := fun _ => .ok (some [])
    SearchSongs := fun _ => .error ⟨"disk I/O error"⟩
    SearchFolders := fun _ => .ok none }

/-- A repository over numbers whose searches all succeed with the nil slice. -/
def nilDB : DB Nat Nat Nat Nat :=
  { SearchArtists := fun _ => .ok none
    SearchAlbums := fun _ => .ok none
    SearchSongs := fun _ => .ok none
    SearchFolders := fun _ => .ok none }

/-- What the specification describes for `Config.Media`: only the first
occurrence of the home-directory pattern is substituted, then the trailing
separators are trimmed. -/
def mediaFirstOccurrence (c : Config) (user : User) : String :=
  TrimRight (Replace c.MediaFolder "~" user.HomeDir 1) "/\\"

end Vocabulary

/-! ## Lemmas on the search handler -/

section SearchLemmas

variable {A B S F : Type}

theorem GetSearch_of_allowed (apiVersionSet : Set) (db : DB A B S F) (req : Request)
    (params : Params) (h : versionAllowed apiVersionSet params = true) :
    GetSearch apiVersionSet db req params = searchQuery db req params SearchResponse.zero := by
  unfold GetSearch
  unfold versionAllowed at h
  cases hv : params.lookup "version" with
  | none => simp
  | some v => simp [hv] at h; simp [h]

theorem searchQuery_of_query (db : DB A B S F) (req : Request) (params : Params) (q : String)
    (hq : params.lookup "query" = some q) :
    searchQuery db req params SearchResponse.zero =
      searchArtists db q (selectTypes (req.urlQuery.Get "type")) SearchResponse.zero [] := by
  simp [searchQuery, hq]

theorem searchArtists_calls (db : DB A B S F) (q : String) (T : Set) :
    (searchArtists db q T SearchResponse.zero []).calls =
      upToFirstFailure db.fails (selectedCalls T q) := by
  unfold searchArtists searchAlbums searchSongs searchFolders selectedCalls
  by_cases h1 : T.Has "artists" = true <;> by_cases h2 : T.Has "albums" = true <;>
    by_cases h3 : T.Has "songs" = true <;> by_cases h4 : T.Has "folders" = true <;>
    cases e1 : db.SearchArtists q <;> cases e2 : db.SearchAlbums q <;>
    cases e3 : db.SearchSongs q <;> cases e4 : db.SearchFolders q <;>
    simp [h1, h2, h3, h4, e1, e2, e3, e4, Op.token, upToFirstFailure, DB.fails, renderOK,
      renderFailure]

theorem searchArtists_rendered (db : DB A B S F) (q : String) (T : Set) :
    (searchArtists db q T SearchResponse.zero []).rendered =
      if (selectedCalls T q).any db.fails then [⟨500, errorBody 500 "server error"⟩]
      else [⟨200,
        { Error := none
          Artists := if T.Has "artists" then valueOrNil (db.SearchArtists q) else none
          Albums := if T.Has "albums" then valueOrNil (db.SearchAlbums q) else none
          Songs := if T.Has "songs" then valueOrNil (db.SearchSongs q) else none
          Folders := if T.Has "folders" then valueOrNil (db.SearchFolders q) else none }⟩] := by
  unfold searchArtists searchAlbums searchSongs searchFolders selectedCalls
  by_cases h1 : T.Has "artists" = true <;> by_cases h2 : T.Has "albums" = true <;>
    by_cases h3 : T.Has "songs" = true <;> by_cases h4 : T.Has "folders" = true <;>
    cases e1 : db.SearchArtists q <;> cases e2 : db.SearchAlbums q <;>
    cases e3 : db.SearchSongs q <;> cases e4 : db.SearchFolders q <;>
    simp [h1, h2, h3, h4, e1, e2, e3, e4, Op.token, DB.fails, renderOK, renderFailure,
      SearchResponse.ServerError, SearchResponse.RenderError, SearchResponse.zero, errorBody,
      valueOrNil]

theorem exists_fails_upToFirstFailure (fails : Call → Bool) (l : List Call) :
    (∃ c ∈ upToFirstFailure fails l, fails c = true) ↔ l.any fails = true := by
  induction l with
  | nil => simp [upToFirstFailure]
  | cons c cs ih =>
    unfold upToFirstFailure
    by_cases hc : fails c = true
    · simp [hc]
    · simp only [hc, Bool.false_eq_true, if_false, List.any_cons, Bool.false_or] at ih ⊢
      rw [← ih]
      constructor
      · rintro ⟨d, hd, hf⟩
        rcases List.mem_cons.mp hd with rfl | hd
        · exact absurd hf hc
        · exact ⟨d, hd, hf⟩
      · rintro ⟨d, hd, hf⟩
        exact ⟨d, List.mem_cons_of_mem _ hd, hf⟩

theorem upToFirstFailure_sublist (fails : Call → Bool) (l : List Call) :
    (upToFirstFailure fails l).Sublist l := by
  induction l with
  | nil => simp [upToFirstFailure]
  | cons c cs ih =>
    unfold upToFirstFailure
    by_cases hc : fails c = true
    · simp [hc]
    · simp [hc, ih]

theorem selectedCalls_nodup (T : Set) (q : String) : (selectedCalls T q).Nodup := by
  unfold selectedCalls
  by_cases h1 : T.Has "artists" = true <;> by_cases h2 : T.Has "albums" = true <;>
    by_cases h3 : T.Has "songs" = true <;> by_cases h4 : T.Has "folders" = true <;>
    simp [List.filter, h1, h2, h3, h4, Op.token]

theorem GetSearch_calls_of_rejected (apiVersionSet : Set) (db : DB A B S F) (req : Request)
    (params : Params) (h : versionAllowed apiVersionSet params = false) :
    (GetSearch apiVersionSet db req params).calls = [] := by
  unfold GetSearch
  unfold versionAllowed at h
  cases hv : params.lookup "version" with
  | none => simp [hv] at h
  | some v => simp [hv] at h; simp [h]

theorem mem_selectedCalls (T : Set) (q : String) (o : Op) :
    (⟨o, q⟩ : Call) ∈ selectedCalls T q ↔ T.Has o.token = true := by
  cases o <;> simp [selectedCalls, Op.token, List.filter] <;>
    by_cases h1 : T.Has "artists" = true <;> by_cases h2 : T.Has "albums" = true <;>
    by_cases h3 : T.Has "songs" = true <;> by_cases h4 : T.Has "folders" = true <;>
    simp [h1, h2, h3, h4]

theorem selectedCalls_shape (T : Set) (q : String) (c : Call) (hc : c ∈ selectedCalls T q) :
    c.query = q ∧ T.Has c.op.token = true := by
  unfold selectedCalls at hc
  simp only [List.mem_map, List.mem_filter] at hc
  obtain ⟨o, ⟨_, ho⟩, rfl⟩ := hc
  exact ⟨rfl, ho⟩

theorem upToFirstFailure_stops (fails : Call → Bool) (l pre : List Call) (c : Call)
    (post : List Call) (h : upToFirstFailure fails l = pre ++ c :: post)
    (hc : fails c = true) : post = [] := by
  induction l generalizing pre with
  | nil => simp [upToFirstFailure] at h
  | cons a as ih =>
    unfold upToFirstFailure at h
    by_cases ha : fails a = true
    · simp only [ha, if_true] at h
      cases pre with
      | nil => simp at h; exact h.2
      | cons p ps => simp at h
    · simp only [ha, Bool.false_eq_true, if_false] at h
      cases pre with
      | nil =>
        simp only [List.nil_append, List.cons.injEq] at h
        rw [h.1] at ha
        exact absurd hc ha
      | cons p ps =>
        simp only [List.cons_append, List.cons.injEq] at h
        exact ih ps h.2

theorem searchQuery_rendered_cases (db : DB A B S F) (req : Request) (params : Params) :
    ∀ r ∈ (searchQuery db req params SearchResponse.zero).rendered, ∀ e : Error,
      r.body.Error = some e →
        e.Message = "no search query specified" ∨ e.Message = "server error" := by
  intro r hr e he
  cases hq : params.lookup "query" with
  | none =>
    simp [searchQuery, hq, SearchResponse.RenderError] at hr
    subst hr
    simp at he
    left
    rw [← he]
  | some q =>
    rw [searchQuery_of_query db req params q hq, searchArtists_rendered] at hr
    split at hr
    · simp [errorBody] at hr
      subst hr
      simp at he
      right
      rw [← he]
    · simp at hr
      subst hr
      simp at he

theorem GetSearch_congr_types (apiVersionSet : Set) (db : DB A B S F) (req req2 : Request)
    (params : Params)
    (h : selectTypes (req2.urlQuery.Get "type") = selectTypes (req.urlQuery.Get "type")) :
    GetSearch apiVersionSet db req2 params = GetSearch apiVersionSet db req params := by
  simp only [GetSearch, searchQuery, h]

end SearchLemmas

/-! ## Lemmas on the type set -/

theorem Set.Has_iff (s : Set) (x : String) : s.Has x = true ↔ x ∈ s.items := by
  simp [Set.Has]

theorem Set.Has_Add (s : Set) (x y : String) :
    (s.Add x).Has y = true ↔ s.Has y = true ∨ y = x := by
  unfold Set.Add
  by_cases h : s.Has x = true
  · simp only [h, if_true]
    constructor
    · exact Or.inl
    · rintro (hy | rfl)
      · exact hy
      · exact h
  · simp only [h, Bool.false_eq_true, if_false]
    simp [Set.Has_iff]

theorem Set.Add_nodup (s : Set) (x : String) (h : s.items.Nodup) : (s.Add x).items.Nodup := by
  unfold Set.Add
  by_cases hx : s.Has x = true
  · simp [hx, h]
  · simp only [hx, Bool.false_eq_true, if_false]
    rw [Set.Has_iff] at hx
    rw [List.nodup_append]
    refine ⟨h, List.nodup_singleton x, ?_⟩
    intro a ha hb
    simp at hb
    subst hb
    exact hx ha

theorem foldl_select_has (U : Set) (toks : List String) (acc : Set) (t : String) :
    (toks.foldl (fun typeSet t => if U.Has t then typeSet.Add t else typeSet) acc).Has t = true ↔
      acc.Has t = true ∨ (t ∈ toks ∧ U.Has t = true) := by
  induction toks generalizing acc with
  | nil => simp
  | cons a as ih =>
    rw [List.foldl_cons, ih]
    by_cases ha : U.Has a = true
    · simp only [ha, if_true, Set.Has_Add, List.mem_cons]
      constructor
      · rintro ((h | rfl) | ⟨h, hu⟩)
        · exact Or.inl h
        · exact Or.inr ⟨Or.inl rfl, ha⟩
        · exact Or.inr ⟨Or.inr h, hu⟩
      · rintro (h | ⟨rfl | h, hu⟩)
        · exact Or.inl (Or.inl h)
        · exact Or.inl (Or.inr rfl)
        · exact Or.inr ⟨h, hu⟩
    · simp only [ha, Bool.false_eq_true, if_false, List.mem_cons]
      constructor
      · rintro (h | ⟨h, hu⟩)
        · exact Or.inl h
        · exact Or.inr ⟨Or.inr h, hu⟩
      · rintro (h | ⟨rfl | h, hu⟩)
        · exact Or.inl h
        · exact absurd hu ha
        · exact Or.inr ⟨h, hu⟩

theorem foldl_select_nodup (U : Set) (toks : List String) (acc : Set) (h : acc.items.Nodup) :
    (toks.foldl (fun typeSet t => if U.Has t then typeSet.Add t else typeSet) acc).items.Nodup := by
  induction toks generalizing acc with
  | nil => simpa using h
  | cons a as ih =>
    rw [List.foldl_cons]
    apply ih
    by_cases ha : U.Has a = true
    · simp only [ha, if_true]
      exact Set.Add_nodup acc a h
    · simpa [ha] using h

theorem defaultTypeSet_eq :
    Set.New ["artists", "albums", "songs", "folders"] =
      ⟨["artists", "albums", "songs", "folders"]⟩ := by
  decide

theorem selectTypes_of_ne (s : String) (hs : s ≠ "") :
    selectTypes s = (Split s ",").foldl
      (fun typeSet t =>
        if (Set.New ["artists", "albums", "songs", "folders"]).Has t then typeSet.Add t
        else typeSet) ⟨[]⟩ := by
  simp [selectTypes, hs, Set.New]

theorem selectTypes_members (s : String) (hs : s ≠ "") (t : String) :
    (selectTypes s).Has t = true ↔
      t ∈ Split s "," ∧ t ∈ ["artists", "albums", "songs", "folders"] := by
  rw [selectTypes_of_ne s hs, foldl_select_has, defaultTypeSet_eq]
  simp [Set.Has_iff]

theorem selectTypes_nodup (s : String) : (selectTypes s).items.Nodup := by
  by_cases hs : s = ""
  · subst hs
    decide
  · rw [selectTypes_of_ne s hs]
    exact foldl_select_nodup _ _ _ List.nodup_nil

/-! ## Lemmas on the string library -/

theorem hasPrefix_single (c d : Char) (cs : List Char) :
    hasPrefix (c :: cs) [d] = decide (c = d) := by
  by_cases h : c = d <;> simp [hasPrefix, h]

theorem splitLoop_ne_nil (sep : List Char) (fuel : Nat) (acc rest : List Char) :
    splitLoop sep fuel acc rest ≠ [] := by
  induction fuel generalizing acc rest with
  | zero => simp [splitLoop]
  | succ n ih =>
    cases rest with
    | nil => simp [splitLoop]
    | cons c cs =>
      unfold splitLoop
      split
      · simp
      · exact ih _ _

theorem intercalate_cons_of_ne_nil (sep x : List Char) (l : List (List Char)) (hl : l ≠ []) :
    sep.intercalate (x :: l) = x ++ sep ++ sep.intercalate l := by
  cases l with
  | nil => exact absurd rfl hl
  | cons y ys => simp [List.intercalate, List.intersperse]

theorem splitLoop_comma_join (fuel : Nat) (acc rest : List Char) (hf : rest.length < fuel) :
    [','].intercalate (splitLoop [','] fuel acc rest) = acc.reverse ++ rest := by
  induction fuel generalizing acc rest with
  | zero => simp at hf
  | succ n ih =>
    cases rest with
    | nil => simp [splitLoop, List.intercalate]
    | cons c cs =>
      have hn : cs.length < n := by simpa using hf
      unfold splitLoop
      rw [hasPrefix_single]
      by_cases hc : c = ','
      · simp only [hc, decide_True, if_true, List.length_singleton, List.drop_one, List.tail_cons]
        rw [intercalate_cons_of_ne_nil _ _ _ (splitLoop_ne_nil _ _ _ _), ih [] cs hn]
        simp
      · simp only [hc, decide_False, Bool.false_eq_true, if_false]
        rw [ih (c :: acc) cs hn]
        simp

theorem splitLoop_comma_free (fuel : Nat) (acc rest : List Char) (hf : rest.length < fuel)
    (hacc : ',' ∉ acc) : ∀ p ∈ splitLoop [','] fuel acc rest, ',' ∉ p := by
  induction fuel generalizing acc rest with
  | zero => simp at hf
  | succ n ih =>
    cases rest with
    | nil =>
      intro p hp
      simp [splitLoop] at hp
      subst hp
      simpa using hacc
    | cons c cs =>
      have hn : cs.length < n := by simpa using hf
      unfold splitLoop
      rw [hasPrefix_single]
      by_cases hc : c = ','
      · simp only [hc, decide_True, if_true, List.length_singleton, List.drop_one, List.tail_cons]
        intro p hp
        rcases List.mem_cons.mp hp with rfl | hp
        · simpa using hacc
        · exact ih [] cs hn (by simp) p hp
      · simp only [hc, decide_False, Bool.false_eq_true, if_false]
        refine ih (c :: acc) cs hn ?_
        simp only [List.mem_cons, not_or]
        exact ⟨fun h => hc h.symm, hacc⟩

/-- `Split s ","` is the comma-split of `s`: joining its pieces with commas gives
back `s`, and no piece contains a comma. -/
theorem Split_comma (s : String) :
    [','].intercalate ((Split s ",").map String.data) = s.data ∧
    ∀ t ∈ Split s ",", ',' ∉ t.data := by
  have h2 : (",": String).data = [','] := rfl
  unfold Split
  simp only [h2, List.cons_ne_nil, if_false, List.map_map]
  constructor
  · have : (String.data ∘ String.mk) = id := by
      funext l
      rfl
    rw [this, List.map_id]
    simpa using splitLoop_comma_join (s.data.length + 1) [] s.data (Nat.lt_succ_self _)
  · intro t ht
    rw [List.mem_map] at ht
    obtain ⟨p, hp, rfl⟩ := ht
    exact splitLoop_comma_free (s.data.length + 1) [] s.data (Nat.lt_succ_self _) (by simp) p hp

theorem replaceLoop_tilde (new : List Char) (s : List Char) (fuel : Nat)
    (hf : s.length < fuel) :
    replaceLoop ['~'] new fuel none s = s.flatMap (fun ch => if ch = '~' then new else [ch]) := by
  induction s generalizing fuel with
  | nil =>
    cases fuel with
    | zero => simp at hf
    | succ n => simp [replaceLoop]
  | cons c cs ih =>
    cases fuel with
    | zero => simp at hf
    | succ n =>
      have hn : cs.length < n := by simpa using hf
      unfold replaceLoop
      simp only [hasPrefix_single, List.flatMap_cons]
      by_cases hc : c = '~'
      · simp [hc, ih n hn]
      · simp [hc, ih n hn]

theorem flatMap_tilde_self (s : List Char) :
    s.flatMap (fun ch => if ch = '~' then ['~'] else [ch]) = s := by
  induction s with
  | nil => simp
  | cons c cs ih =>
    rw [List.flatMap_cons, ih]
    by_cases hc : c = '~' <;> simp [hc]

theorem Replace_tilde_all (s new : String) :
    (Replace s "~" new (-1)).data =
      s.data.flatMap (fun ch => if ch = '~' then new.data else [ch]) := by
  unfold Replace
  by_cases hn : "~" = new
  · subst hn
    simp only [true_or, if_true]
    exact (flatMap_tilde_self s.data).symm
  · have h1 : ¬ ("~" = new ∨ (-1 : Int) = 0) := by
      intro h
      rcases h with h | h
      · exact hn h
      · exact absurd h (by decide)
    have h2 : ("~" : String).data = ['~'] := rfl
    simp only [h1, if_false, h2]
    simp only [List.cons_ne_nil, if_false]
    exact replaceLoop_tilde new.data s.data _ (Nat.lt_succ_self _)

theorem trim_decompose (p : Char → Bool) (l : List Char) :
    ∃ tail : List Char, l = (l.reverse.dropWhile p).reverse ++ tail ∧
      (∀ ch ∈ tail, p ch = true) ∧
      (∀ ch, (l.reverse.dropWhile p).reverse.getLast? = some ch → p ch = false) := by
  refine ⟨(l.reverse.takeWhile p).reverse, ?_, ?_, ?_⟩
  · rw [← List.reverse_append, List.takeWhile_append_dropWhile, List.reverse_reverse]
  · intro ch hch
    rw [List.mem_reverse] at hch
    exact List.mem_takeWhile_imp hch
  · intro ch hch
    rw [List.getLast?_reverse] at hch
    have := List.head?_dropWhile_not p l.reverse
    rw [hch] at this
    simpa using this

/-! ## The search handler -/

section SearchClaims

variable {A B S F : Type}

/-- C1 (amended): for a request that passes the version gate and carries the
query `q`, when every repository operation selected by the type set succeeds,
`GetSearch` renders status 200 with error null; the field of a selected kind is
exactly the slice the repository returned for `q`, the field of an unselected
kind is nil; so a field is populated exactly when its kind is selected and the
repository returned a non-nil slice, whatever its length. -/
theorem GetSearch_success_fields (apiVersionSet : Set) (db : DB A B S F) (req : Request)
    (params : Params) (q : String)
    (hv : versionAllowed apiVersionSet params = true)
    (hq : params.lookup "query" = some q)
    (hok : ∀ c ∈ selectedCalls (selectTypes (req.urlQuery.Get "type")) q, db.fails c = false) :
    ∃ body : SearchResponse A B S F,
      (GetSearch apiVersionSet db req params).rendered = [⟨200, body⟩] ∧
      body.Error = none ∧
      (if (selectTypes (req.urlQuery.Get "type")).Has "artists" then
        db.SearchArtists q = .ok body.Artists else body.Artists = none) ∧
      (if (selectTypes (req.urlQuery.Get "type")).Has "albums" then
        db.SearchAlbums q = .ok body.Albums else body.Albums = none) ∧
      (if (selectTypes (req.urlQuery.Get "type")).Has "songs" then
        db.SearchSongs q = .ok body.Songs else body.Songs = none) ∧
      (if (selectTypes (req.urlQuery.Get "type")).Has "folders" then
        db.SearchFolders q = .ok body.Folders else body.Folders = none) ∧
      ∀ o : Op, body.populated o =
        ((selectTypes (req.urlQuery.Get "type")).Has o.token && db.returnsNonNil ⟨o, q⟩) := by
  generalize hT : selectTypes (req.urlQuery.Get "type") = T at hok ⊢
  have hany : (selectedCalls T q).any db.fails = false := by
    rw [Bool.eq_false_iff]
    intro h
    rw [List.any_eq_true] at h
    obtain ⟨c, hc, hf⟩ := h
    rw [hok c hc] at hf
    exact Bool.false_ne_true hf
  have h1 := fun h => hok ⟨.SearchArtists, q⟩ ((mem_selectedCalls T q .SearchArtists).mpr h)
  have h2 := fun h => hok ⟨.SearchAlbums, q⟩ ((mem_selectedCalls T q .SearchAlbums).mpr h)
  have h3 := fun h => hok ⟨.SearchSongs, q⟩ ((mem_selectedCalls T q .SearchSongs).mpr h)
  have h4 := fun h => hok ⟨.SearchFolders, q⟩ ((mem_selectedCalls T q .SearchFolders).mpr h)
  simp only [Op.token, DB.fails] at h1 h2 h3 h4
  rw [GetSearch_of_allowed apiVersionSet db req params hv, searchQuery_of_query db req params q hq,
    hT, searchArtists_rendered, hany]
  refine ⟨_, rfl, rfl, ?_, ?_, ?_, ?_, ?_⟩
  · by_cases h : T.Has "artists" = true
    · have := h1 h
      cases e : db.SearchArtists q <;> simp_all [valueOrNil]
    · simp [h]
  · by_cases h : T.Has "albums" = true
    · have := h2 h
      cases e : db.SearchAlbums q <;> simp_all [valueOrNil]
    · simp [h]
  · by_cases h : T.Has "songs" = true
    · have := h3 h
      cases e : db.SearchSongs q <;> simp_all [valueOrNil]
    · simp [h]
  · by_cases h : T.Has "folders" = true
    · have := h4 h
      cases e : db.SearchFolders q <;> simp_all [valueOrNil]
    · simp [h]
  · intro o
    cases o
    · by_cases h : T.Has "artists" = true
      · rcases e : db.SearchArtists q with _ | (_ | _) <;>
          simp [SearchResponse.populated, DB.returnsNonNil, Op.token, h, e, valueOrNil]
      · simp [SearchResponse.populated, Op.token, h]
    · by_cases h : T.Has "albums" = true
      · rcases e : db.SearchAlbums q with _ | (_ | _) <;>
          simp [SearchResponse.populated, DB.returnsNonNil, Op.token, h, e, valueOrNil]
      · simp [SearchResponse.populated, Op.token, h]
    · by_cases h : T.Has "songs" = true
      · rcases e : db.SearchSongs q with _ | (_ | _) <;>
          simp [SearchResponse.populated, DB.returnsNonNil, Op.token, h, e, valueOrNil]
      · simp [SearchResponse.populated, Op.token, h]
    · by_cases h : T.Has "folders" = true
      · rcases e : db.SearchFolders q with _ | (_ | _) <;>
          simp [SearchResponse.populated, DB.returnsNonNil, Op.token, h, e, valueOrNil]
      · simp [SearchResponse.populated, Op.token, h]

/-- C1 (witness): a request for albums and folders over `demoDB`, whose album
search returns an empty non-nil slice and whose folder search returns nil. -/
theorem GetSearch_success_fields_witness :
    versionAllowed ⟨["v0"]⟩ [("version", "v0"), ("query", "abbey")] = true ∧
    ∃ body : SearchResponse Nat Nat Nat Nat,
      (GetSearch ⟨["v0"]⟩ demoDB ⟨[("type", ["albums,folders"])]⟩
        [("version", "v0"), ("query", "abbey")]).rendered = [⟨200, body⟩] ∧
      body.Error = none ∧
      body.populated .SearchAlbums = true ∧
      body.populated .SearchFolders = false ∧
      body.populated .SearchArtists = false := by
  obtain ⟨body, hr, he, _, _, _, _, hp⟩ :=
    GetSearch_success_fields ⟨["v0"]⟩ demoDB ⟨[("type", ["albums,folders"])]⟩
      [("version", "v0"), ("query", "abbey")] "abbey" (by decide) (by decide) (by decide)
  exact ⟨by decide, body, hr, he, (hp .SearchAlbums).trans (by decide),
    (hp .SearchFolders).trans (by decide), (hp .SearchArtists).trans (by decide)⟩

/-- C1 (counterexample): with a repository whose successful searches return the
nil slice, a request for artists passes every check of the claim, artists is in
the type set, and yet the artists field of the 200 response is nil: the
response is the one rendered when no kind is selected. -/
theorem GetSearch_nil_slice_not_populated :
    versionAllowed ⟨[]⟩ [("query", "zzz")] = true ∧
    (∀ c ∈ selectedCalls (selectTypes "artists") "zzz", nilDB.fails c = false) ∧
    (selectTypes "artists").Has "artists" = true ∧
    (GetSearch ⟨[]⟩ nilDB ⟨[("type", ["artists"])]⟩ [("query", "zzz")]).rendered =
      [⟨200, ⟨none, none, none, none, none⟩⟩] ∧
    (GetSearch ⟨[]⟩ nilDB ⟨[("type", ["artists"])]⟩ [("query", "zzz")]).rendered =
      (GetSearch ⟨[]⟩ nilDB ⟨[("type", ["bogus"])]⟩ [("query", "zzz")]).rendered := by
  decide

/-- C2: if any repository search operation that `GetSearch` invokes fails, the
handler renders exactly the response of status 500 whose error is
`{code: 500, message: "server error"}` and whose four result fields are nil,
whatever the underlying error and whatever earlier operations returned. -/
theorem GetSearch_failure_renders_server_error (apiVersionSet : Set) (db : DB A B S F)
    (req : Request) (params : Params)
    (hfail : ∃ c ∈ (GetSearch apiVersionSet db req params).calls, db.fails c = true) :
    (GetSearch apiVersionSet db req params).rendered =
      [⟨500, { Error := some ⟨500, "server error"⟩, Artists := none, Albums := none,
               Songs := none, Folders := none }⟩] := by
  cases hv : versionAllowed apiVersionSet params with
  | false =>
    rw [GetSearch_calls_of_rejected apiVersionSet db req params hv] at hfail
    simp at hfail
  | true =>
    rw [GetSearch_of_allowed apiVersionSet db req params hv] at hfail ⊢
    cases hq : params.lookup "query" with
    | none => simp [searchQuery, hq] at hfail
    | some q =>
      rw [searchQuery_of_query db req params q hq] at hfail ⊢
      rw [searchArtists_calls, exists_fails_upToFirstFailure] at hfail
      rw [searchArtists_rendered, hfail]
      rfl

/-- C2 (witness): the song search of `demoDB` fails after the artist and album
searches succeeded. -/
theorem GetSearch_failure_renders_server_error_witness :
    (∃ c ∈ (GetSearch ⟨[]⟩ demoDB ⟨[]⟩ [("query", "beatles")]).calls, demoDB.fails c = true) ∧
    (GetSearch ⟨[]⟩ demoDB ⟨[]⟩ [("query", "beatles")]).rendered =
      [⟨500, { Error := some ⟨500, "server error"⟩, Artists := none, Albums := none,
               Songs := none, Folders := none }⟩] :=
  ⟨⟨⟨.SearchSongs, "beatles"⟩, by decide, by decide⟩,
   GetSearch_failure_renders_server_error ⟨[]⟩ demoDB ⟨[]⟩ [("query", "beatles")]
     ⟨⟨.SearchSongs, "beatles"⟩, by decide, by decide⟩⟩

/-- C3: when the version parameter `V` is present and not in the advertised
set, `GetSearch` renders status 400 with an error of code 400 whose message
contains `V` verbatim, all result fields nil, and invokes no repository
operation; when the version parameter is absent or advertised, the handler goes
on to the query check and renders no unsupported-version error. -/
theorem GetSearch_version_gate (apiVersionSet : Set) (db : DB A B S F) (req : Request)
    (params : Params) :
    (∀ V : String, params.lookup "version" = some V → apiVersionSet.Has V = false →
      (∃ e : Error,
        (GetSearch apiVersionSet db req params).rendered =
          [⟨400, { Error := some e, Artists := none, Albums := none, Songs := none,
                   Folders := none }⟩] ∧
        e.Code = 400 ∧ ∃ pre post : String, e.Message = pre ++ V ++ post) ∧
      (GetSearch apiVersionSet db req params).calls = []) ∧
    ((params.lookup "version" = none ∨
        ∃ V : String, params.lookup "version" = some V ∧ apiVersionSet.Has V = true) →
      GetSearch apiVersionSet db req params = searchQuery db req params SearchResponse.zero ∧
      ∀ r ∈ (GetSearch apiVersionSet db req params).rendered, ∀ e : Error,
        r.body.Error = some e → ¬ "unsupported API version".data <+: e.Message.data) := by
  constructor
  · intro V hV hbad
    refine ⟨⟨⟨400, "unsupported API version" ++ V⟩, ?_, rfl, "unsupported API version", "", ?_⟩, ?_⟩
    · simp [GetSearch, hV, hbad, SearchResponse.RenderError, SearchResponse.zero]
    · simp
    · simp [GetSearch, hV, hbad]
  · intro h
    have hv : versionAllowed apiVersionSet params = true := by
      unfold versionAllowed
      rcases h with h | ⟨V, hV, hin⟩
      · simp [h]
      · simp [hV, hin]
    have heq := GetSearch_of_allowed apiVersionSet db req params hv
    refine ⟨heq, ?_⟩
    rw [heq]
    intro r hr e he
    rcases searchQuery_rendered_cases db req params r hr e he with hm | hm <;>
      rw [hm] <;> decide

/-- C3 (witness): version `v9` against the advertised set `{v0}`, and the same
request with the advertised version `v0`. -/
theorem GetSearch_version_gate_witness :
    ((∃ e : Error,
        (GetSearch ⟨["v0"]⟩ demoDB ⟨[]⟩ [("version", "v9"), ("query", "beatles")]).rendered =
          [⟨400, { Error := some e, Artists := none, Albums := none, Songs := none,
                   Folders := none }⟩] ∧
        e.Code = 400 ∧ ∃ pre post : String, e.Message = pre ++ "v9" ++ post) ∧
      (GetSearch ⟨["v0"]⟩ demoDB ⟨[]⟩ [("version", "v9"), ("query", "beatles")]).calls = []) ∧
    (GetSearch ⟨["v0"]⟩ demoDB ⟨[]⟩ [("version", "v0"), ("query", "beatles")] =
      searchQuery demoDB ⟨[]⟩ [("version", "v0"), ("query", "beatles")] SearchResponse.zero) :=
  ⟨(GetSearch_version_gate ⟨["v0"]⟩ demoDB ⟨[]⟩ [("version", "v9"), ("query", "beatles")]).1
      "v9" (by decide) (by decide),
   ((GetSearch_version_gate ⟨["v0"]⟩ demoDB ⟨[]⟩ [("version", "v0"), ("query", "beatles")]).2
      (Or.inr ⟨"v0", by decide, by decide⟩)).1⟩

/-- C4: a request that passes the version gate and has no query parameter gets
status 400 with error `{code: 400, message: "no search query specified"}`, all
result fields nil, and no repository operation is invoked, whatever the request
URL (and so the type parameter) is. -/
theorem GetSearch_missing_query (apiVersionSet : Set) (db : DB A B S F) (req : Request)
    (params : Params) (hv : versionAllowed apiVersionSet params = true)
    (hq : params.lookup "query" = none) :
    (GetSearch apiVersionSet db req params).rendered =
      [⟨400, { Error := some ⟨400, "no search query specified"⟩, Artists := none,
               Albums := none, Songs := none, Folders := none }⟩] ∧
    (GetSearch apiVersionSet db req params).calls = [] := by
  rw [GetSearch_of_allowed apiVersionSet db req params hv]
  simp [searchQuery, hq, SearchResponse.RenderError, SearchResponse.zero]

/-- C4 (witness): a request for songs with an advertised version and no query. -/
theorem GetSearch_missing_query_witness :
    versionAllowed ⟨["v0"]⟩ [("version", "v0")] = true ∧
    (GetSearch ⟨["v0"]⟩ demoDB ⟨[("type", ["songs"])]⟩ [("version", "v0")]).rendered =
      [⟨400, { Error := some ⟨400, "no search query specified"⟩, Artists := none,
               Albums := none, Songs := none, Folders := none }⟩] ∧
    (GetSearch ⟨["v0"]⟩ demoDB ⟨[("type", ["songs"])]⟩ [("version", "v0")]).calls = [] :=
  ⟨by decide,
   GetSearch_missing_query ⟨["v0"]⟩ demoDB ⟨[("type", ["songs"])]⟩ [("version", "v0")]
     (by decide) (by decide)⟩

/-- C5: the type set `GetSearch` searches is computed from the raw type
parameter `s` alone: for empty `s` it is the universe artists, albums, songs,
folders; otherwise its members are exactly the comma-separated tokens of `s`
that belong to the universe, each held once, and it is empty when every token
is unknown; two requests that select the same set get the same outcome, and
`type=artists,bogus` gets the outcome of `type=artists`. -/
theorem GetSearch_type_selection (apiVersionSet : Set) (db : DB A B S F) (req : Request)
    (params : Params) :
    (req.urlQuery.Get "type" = "" →
      (selectTypes (req.urlQuery.Get "type")).items = ["artists", "albums", "songs", "folders"]) ∧
    (req.urlQuery.Get "type" ≠ "" → ∀ t : String,
      (selectTypes (req.urlQuery.Get "type")).Has t = true ↔
        t ∈ Split (req.urlQuery.Get "type") "," ∧
          t ∈ ["artists", "albums", "songs", "folders"]) ∧
    (selectTypes (req.urlQuery.Get "type")).items.Nodup ∧
    (req.urlQuery.Get "type" ≠ "" →
      (∀ t ∈ Split (req.urlQuery.Get "type") ",", t ∉ ["artists", "albums", "songs", "folders"]) →
      (selectTypes (req.urlQuery.Get "type")).items = []) ∧
    (∀ req2 : Request,
      selectTypes (req2.urlQuery.Get "type") = selectTypes (req.urlQuery.Get "type") →
      GetSearch apiVersionSet db req2 params = GetSearch apiVersionSet db req params) ∧
    (∀ req2 : Request, req.urlQuery.Get "type" = "artists,bogus" →
      req2.urlQuery.Get "type" = "artists" →
      GetSearch apiVersionSet db req params = GetSearch apiVersionSet db req2 params) := by
  refine ⟨?_, selectTypes_members _, selectTypes_nodup _, ?_, ?_, ?_⟩
  · intro hs
    rw [hs]
    decide
  · intro hs hall
    apply List.eq_nil_iff_forall_not_mem.mpr
    intro t ht
    have := (selectTypes_members _ hs t).mp ((Set.Has_iff _ t).mpr ht)
    exact hall t this.1 this.2
  · intro req2 h
    exact GetSearch_congr_types apiVersionSet db req req2 params h
  · intro req2 h1 h2
    apply GetSearch_congr_types
    rw [h1, h2]
    decide

/-- C5 (witness): `type=artists,bogus` against `type=artists` over `demoDB`. -/
theorem GetSearch_type_selection_witness :
    (selectTypes "artists,bogus").Has "artists" = true ∧
    (selectTypes "artists,bogus").Has "bogus" = false ∧
    GetSearch ⟨[]⟩ demoDB ⟨[("type", ["artists,bogus"])]⟩ [("query", "beatles")] =
      GetSearch ⟨[]⟩ demoDB ⟨[("type", ["artists"])]⟩ [("query", "beatles")] :=
  ⟨by decide, by decide,
   (GetSearch_type_selection ⟨[]⟩ demoDB ⟨[("type", ["artists,bogus"])]⟩
      [("query", "beatles")]).2.2.2.2.2 ⟨[("type", ["artists"])]⟩ (by decide) (by decide)⟩

/-- C6: for a request that passes the version gate and carries the query `q`,
the repository operations `GetSearch` invokes are the list SearchArtists,
SearchAlbums, SearchSongs, SearchFolders restricted to the kinds of the type
set, each with `q`, cut immediately after the first operation that fails: no
operation is invoked twice, every invocation is for a selected kind and for
`q`, and an invocation that fails is the last one. -/
theorem GetSearch_call_sequence (apiVersionSet : Set) (db : DB A B S F) (req : Request)
    (params : Params) (q : String)
    (hv : versionAllowed apiVersionSet params = true)
    (hq : params.lookup "query" = some q) :
    (GetSearch apiVersionSet db req params).calls =
      upToFirstFailure db.fails (selectedCalls (selectTypes (req.urlQuery.Get "type")) q) ∧
    (GetSearch apiVersionSet db req params).calls.Nodup ∧
    (GetSearch apiVersionSet db req params).calls.Sublist
      [⟨.SearchArtists, q⟩, ⟨.SearchAlbums, q⟩, ⟨.SearchSongs, q⟩, ⟨.SearchFolders, q⟩] ∧
    (∀ c ∈ (GetSearch apiVersionSet db req params).calls,
      c.query = q ∧ (selectTypes (req.urlQuery.Get "type")).Has c.op.token = true) ∧
    (∀ (pre : List Call) (c : Call) (post : List Call),
      (GetSearch apiVersionSet db req params).calls = pre ++ c :: post →
        db.fails c = true → post = []) := by
  have hcalls : (GetSearch apiVersionSet db req params).calls =
      upToFirstFailure db.fails (selectedCalls (selectTypes (req.urlQuery.Get "type")) q) := by
    rw [GetSearch_of_allowed apiVersionSet db req params hv,
      searchQuery_of_query db req params q hq, searchArtists_calls]
  have hsub := upToFirstFailure_sublist db.fails
    (selectedCalls (selectTypes (req.urlQuery.Get "type")) q)
  rw [hcalls]
  refine ⟨rfl, hsub.nodup (selectedCalls_nodup _ q), ?_, ?_, ?_⟩
  · refine hsub.trans ?_
    unfold selectedCalls
    exact (List.filter_sublist _).map _
  · intro c hc
    exact selectedCalls_shape _ q c (hsub.subset hc)
  · intro pre c post h hc
    exact upToFirstFailure_stops db.fails _ pre c post h hc

/-- C6 (witness): all four kinds selected over `demoDB`, whose song search
fails: artists, albums and songs are searched, folders is not. -/
theorem GetSearch_call_sequence_witness :
    versionAllowed ⟨[]⟩ [("query", "beatles")] = true ∧
    (GetSearch ⟨[]⟩ demoDB ⟨[]⟩ [("query", "beatles")]).calls =
      [⟨.SearchArtists, "beatles"⟩, ⟨.SearchAlbums, "beatles"⟩, ⟨.SearchSongs, "beatles"⟩] :=
  ⟨by decide,
   (GetSearch_call_sequence ⟨[]⟩ demoDB ⟨[]⟩ [("query", "beatles")] "beatles"
      (by decide) (by decide)).1.trans (by decide)⟩

/-- C10 (amended): every query string that `GetSearch` passes to a repository
search operation is the value of the request's query parameter, which is
therefore present; it may be empty: a present, empty query parameter is passed
to the selected operations as the empty string. -/
theorem GetSearch_calls_use_query_parameter (apiVersionSet : Set) (db : DB A B S F)
    (req : Request) (params : Params) :
    (∀ c ∈ (GetSearch apiVersionSet db req params).calls,
      params.lookup "query" = some c.query) ∧
    (versionAllowed apiVersionSet params = true → params.lookup "query" = some "" →
      (GetSearch apiVersionSet db req params).calls =
        upToFirstFailure db.fails
          (selectedCalls (selectTypes (req.urlQuery.Get "type")) "")) := by
  constructor
  · intro c hc
    cases hv : versionAllowed apiVersionSet params with
    | false =>
      rw [GetSearch_calls_of_rejected apiVersionSet db req params hv] at hc
      simp at hc
    | true =>
      rw [GetSearch_of_allowed apiVersionSet db req params hv] at hc
      cases hq : params.lookup "query" with
      | none => simp [searchQuery, hq] at hc
      | some q =>
        rw [searchQuery_of_query db req params q hq, searchArtists_calls] at hc
        have := selectedCalls_shape _ q c
          ((upToFirstFailure_sublist db.fails _).subset hc)
        rw [this.1]
  · intro hv hq
    rw [GetSearch_of_allowed apiVersionSet db req params hv,
      searchQuery_of_query db req params "" hq, searchArtists_calls]

/-- C10 (witness): the album search invoked for the query `abbey`. -/
theorem GetSearch_calls_use_query_parameter_witness :
    (⟨.SearchAlbums, "abbey"⟩ : Call) ∈
      (GetSearch ⟨[]⟩ demoDB ⟨[]⟩ [("query", "abbey")]).calls ∧
    List.lookup "query" [("query", "abbey")] = some "abbey" :=
  ⟨by decide,
   (GetSearch_calls_use_query_parameter ⟨[]⟩ demoDB ⟨[]⟩ [("query", "abbey")]).1
     ⟨.SearchAlbums, "abbey"⟩ (by decide)⟩

/-- C10 (counterexample): the query parameter is present and empty, and all
four repository operations are invoked with the empty string. -/
theorem GetSearch_passes_empty_query :
    List.lookup "query" [("query", "")] = some "" ∧
    (GetSearch ⟨[]⟩ nilDB ⟨[]⟩ [("query", "")]).calls =
      [⟨.SearchArtists, ""⟩, ⟨.SearchAlbums, ""⟩, ⟨.SearchSongs, ""⟩, ⟨.SearchFolders, ""⟩] := by
  decide

end SearchClaims

/-! ## The media path and the music-folder adapter -/

/-- C7 (amended): when home-directory resolution succeeds, `Config.Media`
returns the media root with every occurrence of `~` substituted by the home
directory (other characters unchanged), with all trailing `/` and `\`
characters then trimmed from the result, and logs nothing. -/
theorem Media_replaces_every_tilde (c : Config) (user : User) :
    ∃ tail : List Char,
      c.MediaFolder.data.flatMap (fun ch => if ch = '~' then user.HomeDir.data else [ch]) =
        (c.Media (.ok user)).1.data ++ tail ∧
      (∀ ch ∈ tail, ch = '/' ∨ ch = '\\') ∧
      (∀ ch : Char, (c.Media (.ok user)).1.data.getLast? = some ch → ch ≠ '/' ∧ ch ≠ '\\') ∧
      (c.Media (.ok user)).2 = [] := by
  obtain ⟨tail, h1, h2, h3⟩ := trim_decompose (fun ch => ("/\\" : String).data.contains ch)
    (Replace c.MediaFolder "~" user.HomeDir (-1)).data
  have hcut : ("/\\" : String).data = ['/', '\\'] := rfl
  refine ⟨tail, ?_, ?_, ?_, rfl⟩
  · rw [← Replace_tilde_all]
    exact h1
  · intro ch hch
    have := h2 ch hch
    simpa [hcut] using this
  · intro ch hch
    have := h3 ch hch
    simpa [hcut] using this

/-- C7 (counterexample): for the media root `~/a~b` and the home directory `/h`
the code substitutes both occurrences of `~`, where substituting the first one
only would leave the second in place. -/
theorem Media_not_first_occurrence_only :
    (Config.Media ⟨"", "~/a~b/", none⟩ (.ok ⟨"/h"⟩)).1 = "/h/a/hb" ∧
    mediaFirstOccurrence ⟨"", "~/a~b/", none⟩ ⟨"/h"⟩ = "/h/a~b" ∧
    (Config.Media ⟨"", "~/a~b/", none⟩ (.ok ⟨"/h"⟩)).1 ≠
      mediaFirstOccurrence ⟨"", "~/a~b/", none⟩ ⟨"/h"⟩ := by
  decide

/-- C8: when configuration loading succeeds, `GetMusicFolders` renders the new
container with its music-folder list set to exactly one entry, of identifier 0
and of name `path.Base` of `Config.Media`; for the media root `~/Music/` and the
home directory `/home/alice` that name is `Music`. -/
theorem GetMusicFolders_single_folder {R : Type} (newContainer ErrGeneric : Container R)
    (load : Except GoError Config) (current : Except GoError User) (conf : Config)
    (hload : load = .ok conf) :
    (∃ c : Container R, ∃ folders : MusicFoldersContainer,
      (GetMusicFolders newContainer ErrGeneric load current).rendered = [⟨200, c⟩] ∧
      c.rest = newContainer.rest ∧
      c.MusicFolders = some folders ∧
      folders.MusicFolders = some [⟨0, Base (conf.Media current).1⟩]) ∧
    (conf.MediaFolder = "~/Music/" → current = .ok ⟨"/home/alice"⟩ →
      Base (conf.Media current).1 = "Music") := by
  subst hload
  refine ⟨⟨_, _, rfl, rfl, rfl, rfl⟩, ?_⟩
  intro hm hc
  subst hc
  simp only [Config.Media, hm]
  decide

/-- C8 (witness): the media root `~/Music/` with the home directory `/home/alice`. -/
theorem GetMusicFolders_single_folder_witness :
    (GetMusicFolders (⟨"ok", none⟩ : Container String) ⟨"failed", none⟩
      (.ok ⟨"", "~/Music/", none⟩) (.ok ⟨"/home/alice"⟩)).rendered =
      [⟨200, ⟨"ok", some ⟨⟨"", ""⟩, some [⟨0, "Music"⟩]⟩⟩⟩] ∧
    Base (Config.Media ⟨"", "~/Music/", none⟩ (.ok ⟨"/home/alice"⟩)).1 = "Music" :=
  ⟨by decide,
   (GetMusicFolders_single_folder (⟨"ok", none⟩ : Container String) ⟨"failed", none⟩
      (.ok ⟨"", "~/Music/", none⟩) (.ok ⟨"/home/alice"⟩) ⟨"", "~/Music/", none⟩ rfl).2 rfl rfl⟩

/-- C9: whatever configuration loading returns, `GetMusicFolders` renders
exactly one response and its status is 200; when loading fails the payload is
the generic error container `ErrGeneric`, whatever the error, the new container
and the current user are, and it carries a music-folder listing only if
`ErrGeneric` itself does. -/
theorem GetMusicFolders_always_200 {R : Type} (newContainer ErrGeneric : Container R)
    (load : Except GoError Config) (current : Except GoError User) :
    (GetMusicFolders newContainer ErrGeneric load current).rendered.length = 1 ∧
    (∀ r ∈ (GetMusicFolders newContainer ErrGeneric load current).rendered, r.status = 200) ∧
    (∀ err : GoError, load = .error err →
      (GetMusicFolders newContainer ErrGeneric load current).rendered = [⟨200, ErrGeneric⟩] ∧
      (∀ (err2 : GoError) (newContainer2 : Container R) (current2 : Except GoError User),
        (GetMusicFolders newContainer2 ErrGeneric (.error err2) current2).rendered =
          (GetMusicFolders newContainer ErrGeneric load current).rendered) ∧
      (ErrGeneric.MusicFolders = none →
        ∀ r ∈ (GetMusicFolders newContainer ErrGeneric load current).rendered,
          r.payload.MusicFolders = none)) := by
  cases load with
  | error e =>
    refine ⟨rfl, ?_, ?_⟩
    · intro r hr
      simp [GetMusicFolders] at hr
      rw [hr]
    · intro err _
      refine ⟨rfl, fun _ _ _ => rfl, ?_⟩
      intro hE r hr
      simp [GetMusicFolders] at hr
      rw [hr]
      exact hE
  | ok conf =>
    refine ⟨rfl, ?_, ?_⟩
    · intro r hr
      simp [GetMusicFolders] at hr
      rw [hr]
    · intro err h
      cases h

/-- C9 (witness): a failing configuration load. -/
theorem GetMusicFolders_always_200_witness :
    (GetMusicFolders (⟨"ok", none⟩ : Container String) ⟨"failed", none⟩
      (.error ⟨"open wavepipe.json: no such file"⟩) (.ok ⟨"/home/alice"⟩)).rendered =
      [⟨200, ⟨"failed", none⟩⟩] :=
  ((GetMusicFolders_always_200 (⟨"ok", none⟩ : Container String) ⟨"failed", none⟩
      (.error ⟨"open wavepipe.json: no such file"⟩) (.ok ⟨"/home/alice"⟩)).2.2
      ⟨"open wavepipe.json: no such file"⟩ rfl).1

end Wavepipe
